import Mathlib

/-!
Shallow embedding of `src/native/jni/core/log_monitor.c` (Magisk's logcat
monitor daemon): the listener registry, the built-in filters, the dispatch
loop body, the sanity probe `test_logcat`, the `SIGPIPE` handler and the
acceptor task `socket_thread`.

Modelling conventions:
* C strings (log lines) are `List Char` without a terminating NUL.
* File / socket descriptors are `Int`; the code uses `-1` for "absent" and
  tests presence with `fd > 0` resp. absence with `fd < 0`, exactly as the
  C does.
* The one out-of-bounds memory access in the C (`ss[-1]` in
  `magisk_log_filter` when the match starts at offset 0) is modelled by a
  parameter `oob : Char`: the unspecified byte that such a read returns.
  Every in-bounds execution is independent of `oob`.
* The registry mutex serialises `dispatch` + re-arm as one atomic step;
  that guarded critical section is the single function `processLine`.
* `write(2)` results are a parameter `writeOk : Int → Bool` (per fd); a
  failed write on the hide socket raises `SIGPIPE`, whose handler clears
  the hide slot.
-/

namespace LogMonitor

/-- Index of the first occurrence of `needle` in `hay`
(the offset `strstr(hay, needle) - hay`), `none` when `strstr` returns NULL. -/
def strstrIdx (hay needle : List Char) : Option Nat :=
  match hay with
  | [] => if needle.isPrefixOf ([] : List Char) then some 0 else none
  | c :: t =>
    if needle.isPrefixOf (c :: t) then some 0
    else (strstrIdx t needle).map (· + 1)

/-- The needle `"am_proc_start"` of `am_proc_start_filter`. -/
def amProcStart : List Char := "am_proc_start".toList

/-- The needle `" Magisk"` of `magisk_log_filter`. -/
def magiskTag : List Char := " Magisk".toList

/-- `am_proc_start_filter` (line 34): `strstr(log, "am_proc_start") != NULL`. -/
def am_proc_start_filter (log : List Char) : Bool :=
  (strstrIdx log amProcStart).isSome

/-- `magisk_log_filter` (line 38):
`(ss = strstr(log, " Magisk")) && (ss[-1] != 'D') && (ss[-1] != 'V')`.
`ss[-1]` reads the byte just before the first occurrence of `" Magisk"`;
when that occurrence starts at offset 0 the read is out of bounds and
returns the unspecified byte `oob` (so does any other out-of-range read,
which in fact cannot happen). -/
def magisk_log_filter (oob : Char) (log : List Char) : Bool :=
  match strstrIdx log magiskTag with
  | none => false
  | some i =>
    let prev := if i = 0 then oob else log.getD (i - 1) oob
    prev != 'D' && prev != 'V'

/-- `magisk_debug_log_filter` (line 43): `strstr(log, "am_proc_start") == NULL`. -/
def magisk_debug_log_filter (log : List Char) : Bool :=
  (strstrIdx log amProcStart).isNone

/-- The buffer offset read by the expression `ss[-1]` in `magisk_log_filter`,
relative to the start of the line buffer: one less than the offset of the
first occurrence of `" Magisk"` (defined only when `strstr` succeeds).
A negative value is a read before the start of the buffer. -/
def ssPrevIndex (log : List Char) : Option Int :=
  (strstrIdx log magiskTag).map (fun i => (i : Int) - 1)

/-- The mutable daemon state: the global readiness flag `loggable`
(line 18, `int loggable = 1`), the three listener fds of `log_events`
(lines 47-60, all initialised to `-1`) and the acceptor thread handle
(line 20, `static pthread_t thread = -1`). -/
structure LogState where
  loggable : Bool
  hideFd : Int
  logFd : Int
  debugFd : Int
  thread : Int
deriving DecidableEq, Repr

/-- The state at program start: `loggable = 1`, every `log_events[i].fd = -1`,
`thread = -1`. -/
def initState : LogState := ⟨true, -1, -1, -1, -1⟩

/-- `log_events[i].fd` for `i = HIDE_EVENT, LOG_EVENT, DEBUG_EVENT`. -/
def getFd (s : LogState) : Fin 3 → Int
  | ⟨0, _⟩ => s.hideFd
  | ⟨1, _⟩ => s.logFd
  | ⟨2, _⟩ => s.debugFd

/-- `log_events[i].filter`, as initialised in lines 47-60:
`am_proc_start_filter`, `magisk_log_filter`, `magisk_debug_log_filter`. -/
def filterAt (oob : Char) : Fin 3 → List Char → Bool
  | ⟨0, _⟩ => am_proc_start_filter
  | ⟨1, _⟩ => magisk_log_filter oob
  | ⟨2, _⟩ => magisk_debug_log_filter

/-- `sigpipe_handler` (lines 75-78): close the hide fd and set it to `-1`. -/
def sigpipe_handler (s : LogState) : LogState := { s with hideFd := -1 }

/-- One step of the dispatch `for` loop (lines 147-150):
`if (log_events[i].fd > 0 && log_events[i].filter(line)) write(fd, line, len)`.
Returns the state after the step and the write that was issued, if any, as
`(slot, fd, data written)`; the data is the whole line and the byte count is
its length. A failed write to the hide socket (`¬ writeOk fd`) raises
`SIGPIPE`, and `sigpipe_handler` clears the hide slot. -/
def slotDispatch (oob : Char) (writeOk : Int → Bool) (line : List Char)
    (s : LogState) (i : Fin 3) : LogState × Option (Fin 3 × Int × List Char) :=
  let fd := getFd s i
  if 0 < fd ∧ filterAt oob i line = true then
    let s' := if i = 0 ∧ writeOk fd = false then sigpipe_handler s else s
    (s', some (i, fd, line))
  else (s, none)

/-- The full dispatch pass of one line over all `EVENT_NUM = 3` slots, in
slot order (lines 147-150), together with the list of writes issued. -/
def dispatchLine (oob : Char) (writeOk : Int → Bool) (line : List Char)
    (s : LogState) : LogState × List (Fin 3 × Int × List Char) :=
  let r0 := slotDispatch oob writeOk line s 0
  let r1 := slotDispatch oob writeOk line r0.1 1
  let r2 := slotDispatch oob writeOk line r1.1 2
  (r2.1, r0.2.toList ++ r1.2.toList ++ r2.2.toList)

/-- The write issued for one slot during a dispatch pass, as a function of
the registry state at the start of the pass. -/
def slotWrite (oob : Char) (line : List Char) (s : LogState) (i : Fin 3) :
    List (Fin 3 × Int × List Char) :=
  if 0 < getFd s i ∧ filterAt oob i line = true then [(i, getFd s i, line)] else []

/-- Result of handling one line read by `fgets` (lines 142-156). -/
structure LineResult where
  state : LogState
  writes : List (Fin 3 × Int × List Char)
  spawned : Bool
deriving Repr

/-- Handling of one line in the inner loop (lines 142-156): a line whose
first character is `'-'` is skipped (`continue`); otherwise, under one
acquisition of the registry mutex, the line is dispatched to every slot and
then, still under the lock, a new acceptor thread (handle `tid`) is spawned
iff `thread < 0 && log_events[HIDE_EVENT].fd < 0`. -/
def processLine (oob : Char) (writeOk : Int → Bool) (tid : Int)
    (line : List Char) (s : LogState) : LineResult :=
  if line.head? = some '-' then ⟨s, [], false⟩
  else
    let r := dispatchLine oob writeOk line s
    if r.1.thread < 0 ∧ r.1.hideFd < 0 then
      ⟨{ r.1 with thread := tid }, r.2, true⟩
    else ⟨r.1, r.2, false⟩

/-- Result of `test_logcat`, recording the side effects on the probe
subprocess besides the state update. -/
structure ProbeResult where
  state : LogState
  argv : List String
  bytesRequested : Nat
  killed : Bool
  reaped : Bool
deriving Repr

/-- `test_logcat` (lines 63-73): spawn `logcat` with no arguments, try to
read `sizeof(buf) = 1` byte; if the read does not return 1 byte
(`readOk = false`), set `loggable = 0`; in every case send `SIGTERM` to the
probe process and `waitpid` it. -/
def test_logcat (readOk : Bool) (s : LogState) : ProbeResult :=
  let s' := if readOk then s else { s with loggable := false }
  ⟨s', ["logcat"], 1, true, true⟩

/-- The teardown branch body (lines 127-130): close every listener fd and
set it to `-1`. -/
def disableAll (s : LogState) : LogState :=
  { s with hideFd := -1, logFd := -1, debugFd := -1 }

/-- The head of the `while (1)` loop of `log_daemon` (lines 124-132):
when `loggable` is false, every listener fd is closed and set to `-1` and
`log_daemon` returns (`Except.error` = the loop terminated with the given
final state); otherwise the iteration continues (`Except.ok`). -/
def loopEntry (s : LogState) : Except LogState LogState :=
  if s.loggable = true then Except.ok s
  else Except.error (disableAll s)

/-- Modelled from the spec: the command code `HIDE_CONNECT`
(`SUBSCRIBE_DYNAMIC`) is declared in `daemon.h`, which is not part of the
sources; its numeric value is irrelevant — every theorem below depends only
on whether a received code equals it. -/
def HIDE_CONNECT : Int := 0

/-- Result of running `socket_thread` over a queue of incoming connections. -/
structure AcceptorResult where
  state : LogState
  closed : List Int
  registered : Option Int
deriving DecidableEq, Repr

/-- `socket_thread` (lines 80-96), applied to the (finite prefix of the)
sequence of accepted connections, each a pair of the connection fd and the
command code read from it. On `HIDE_CONNECT`: install the fd as the hide
slot's target under the registry mutex, set `thread = -1` and return.
On any other code: `close(fd)` and loop back to `accept4`. An exhausted
queue means the thread is still blocked in `accept4`. -/
def socket_thread : List (Int × Int) → LogState → AcceptorResult
  | [], s => ⟨s, [], none⟩
  | (fd, code) :: rest, s =>
    if code = HIDE_CONNECT then
      ⟨{ s with hideFd := fd, thread := -1 }, [], some fd⟩
    else
      let r := socket_thread rest s
      ⟨r.state, fd :: r.closed, r.registered⟩

/-- The state-mutating operations of `log_monitor.c`, used to reason about
what can happen to the daemon state over its lifetime:
`probe` = `test_logcat`, `sigpipe` = `sigpipe_handler`,
`register` = the `HIDE_CONNECT` branch of `socket_thread`,
`reject` = the `default` branch of `socket_thread` (closes the connection,
leaves the state alone), `line` = one iteration of the inner read loop,
`teardown` = the `!loggable` branch of the outer loop, `openLogs` = the
log-file setup of lines 114-119. -/
inductive Op where
  | probe (readOk : Bool)
  | sigpipe
  | register (fd : Int)
  | reject (fd : Int)
  | line (oob : Char) (writeOk : Int → Bool) (tid : Int) (l : List Char)
  | teardown
  | openLogs (lfd dfd : Int)

def applyOp : Op → LogState → LogState
  | .probe readOk, s => (test_logcat readOk s).state
  | .sigpipe, s => sigpipe_handler s
  | .register fd, s => { s with hideFd := fd, thread := -1 }
  | .reject _, s => s
  | .line oob writeOk tid l, s => (processLine oob writeOk tid l s).state
  | .teardown, s => disableAll s
  | .openLogs lfd dfd, s => { s with logFd := lfd, debugFd := dfd }

theorem strstrIdx_isPrefixOf (needle : List Char) :
    ∀ (hay : List Char) (j : Nat), strstrIdx hay needle = some j →
      needle.isPrefixOf (hay.drop j)
  | [], j, h => by
    by_cases hp : needle.isPrefixOf ([] : List Char)
    · have hj : 0 = j := by simpa [strstrIdx, hp] using h
      cases hj; simpa using hp
    · simp [strstrIdx, hp] at h
  | c :: t, j, h => by
    by_cases hp : needle.isPrefixOf (c :: t)
    · have hj : 0 = j := by simpa [strstrIdx, hp] using h
      cases hj; simpa using hp
    · have h' : (strstrIdx t needle).map (· + 1) = some j := by
        simpa [strstrIdx, hp] using h
      rw [Option.map_eq_some'] at h'
      obtain ⟨j', hj', rfl⟩ := h'
      simpa using strstrIdx_isPrefixOf needle t j' hj'

theorem strstrIdx_lt_length (hay needle : List Char) (j : Nat)
    (hne : needle ≠ []) (h : strstrIdx hay needle = some j) : j < hay.length := by
  have hpre := strstrIdx_isPrefixOf needle hay j h
  rw [List.isPrefixOf_iff_prefix] at hpre
  by_contra hlen
  push_neg at hlen
  rw [List.drop_eq_nil_of_le hlen] at hpre
  exact hne (List.prefix_nil.mp hpre)

theorem slotDispatch_fst_of_ne (oob : Char) (writeOk : Int → Bool)
    (line : List Char) (s : LogState) (i : Fin 3) (hi : i ≠ 0) :
    (slotDispatch oob writeOk line s i).1 = s := by
  unfold slotDispatch
  simp only
  split
  · simp [hi]
  · rfl

theorem slotDispatch_fst_zero (oob : Char) (writeOk : Int → Bool)
    (line : List Char) (s : LogState) :
    (slotDispatch oob writeOk line s 0).1 = s ∨
      (slotDispatch oob writeOk line s 0).1 = sigpipe_handler s := by
  unfold slotDispatch
  simp only
  split
  · split
    · right; rfl
    · left; rfl
  · left; rfl

theorem dispatchLine_fst_cases (oob : Char) (writeOk : Int → Bool)
    (line : List Char) (s : LogState) :
    (dispatchLine oob writeOk line s).1 = s ∨
      (dispatchLine oob writeOk line s).1 = sigpipe_handler s := by
  unfold dispatchLine
  simp only
  rw [slotDispatch_fst_of_ne oob writeOk line _ 2 (by decide),
      slotDispatch_fst_of_ne oob writeOk line _ 1 (by decide)]
  exact slotDispatch_fst_zero oob writeOk line s

theorem sigpipe_handler_loggable (s : LogState) :
    (sigpipe_handler s).loggable = s.loggable := rfl

theorem dispatchLine_fst_preserves (oob : Char) (writeOk : Int → Bool)
    (line : List Char) (s : LogState) :
    (dispatchLine oob writeOk line s).1.loggable = s.loggable ∧
      (dispatchLine oob writeOk line s).1.thread = s.thread ∧
      (dispatchLine oob writeOk line s).1.logFd = s.logFd ∧
      (dispatchLine oob writeOk line s).1.debugFd = s.debugFd := by
  rcases dispatchLine_fst_cases oob writeOk line s with h | h <;>
    rw [h] <;> simp [sigpipe_handler]

theorem slotDispatch_snd (oob : Char) (writeOk : Int → Bool)
    (line : List Char) (s : LogState) (i : Fin 3) :
    (slotDispatch oob writeOk line s i).2 =
      if 0 < getFd s i ∧ filterAt oob i line = true
      then some (i, getFd s i, line) else none := by
  unfold slotDispatch
  simp only
  split <;> rfl

theorem getFd_sigpipe_one (s : LogState) :
    getFd (sigpipe_handler s) 1 = getFd s 1 := rfl

theorem getFd_sigpipe_two (s : LogState) :
    getFd (sigpipe_handler s) 2 = getFd s 2 := rfl

theorem dispatchLine_snd (oob : Char) (writeOk : Int → Bool)
    (line : List Char) (s : LogState) :
    (dispatchLine oob writeOk line s).2 =
      slotWrite oob line s 0 ++ slotWrite oob line s 1 ++ slotWrite oob line s 2 := by
  have h1 : ∀ t : LogState, (slotDispatch oob writeOk line t 1).1 = t :=
    fun t => slotDispatch_fst_of_ne oob writeOk line t 1 (by decide)
  unfold dispatchLine
  dsimp only
  rw [h1]
  rcases slotDispatch_fst_zero oob writeOk line s with h | h <;>
    rw [h, slotDispatch_snd, slotDispatch_snd, slotDispatch_snd] <;>
    unfold slotWrite
  · split <;> split <;> split <;> rfl
  · rw [getFd_sigpipe_one, getFd_sigpipe_two]
    split <;> split <;> split <;> rfl

theorem processLine_loggable (oob : Char) (writeOk : Int → Bool) (tid : Int)
    (line : List Char) (s : LogState) :
    (processLine oob writeOk tid line s).state.loggable = s.loggable := by
  unfold processLine
  split
  · rfl
  · dsimp only
    split
    · exact (dispatchLine_fst_preserves oob writeOk line s).1
    · exact (dispatchLine_fst_preserves oob writeOk line s).1

theorem applyOp_loggable (op : Op) (s : LogState) :
    (applyOp op s).loggable = s.loggable ∨ op = Op.probe false := by
  cases op with
  | probe r =>
    cases r
    · right; rfl
    · left; rfl
  | sigpipe => left; rfl
  | register fd => left; rfl
  | reject fd => left; rfl
  | line oob writeOk tid l => left; exact processLine_loggable oob writeOk tid l s
  | teardown => left; rfl
  | openLogs lfd dfd => left; rfl

theorem applyOp_probe_false (s : LogState) :
    (applyOp (Op.probe false) s).loggable = false := rfl

theorem applyOp_false_mono (op : Op) (s : LogState) (h : s.loggable = false) :
    (applyOp op s).loggable = false := by
  rcases applyOp_loggable op s with he | he
  · rw [he, h]
  · rw [he]; exact applyOp_probe_false s

theorem foldl_applyOp_false (ops : List Op) :
    ∀ s : LogState, s.loggable = false →
      (ops.foldl (fun t op => applyOp op t) s).loggable = false := by
  induction ops with
  | nil => intro s h; simpa using h
  | cons op rest ih => intro s h; exact ih _ (applyOp_false_mono op s h)

theorem socket_thread_no_match (s : LogState) :
    ∀ conns : List (Int × Int), (∀ c ∈ conns, c.2 ≠ HIDE_CONNECT) →
      socket_thread conns s = ⟨s, conns.map Prod.fst, none⟩ := by
  intro conns
  induction conns with
  | nil => intro _; rfl
  | cons c rest ih =>
    intro h
    obtain ⟨fd, code⟩ := c
    have hne : code ≠ HIDE_CONNECT := h (fd, code) (List.mem_cons_self _ _)
    have hr := ih (fun d hd => h d (List.mem_cons_of_mem _ hd))
    simp only [socket_thread, if_neg hne, hr, List.map_cons]

theorem socket_thread_first_match (s : LogState) :
    ∀ (pre : List (Int × Int)) (fd : Int) (post : List (Int × Int)),
      (∀ c ∈ pre, c.2 ≠ HIDE_CONNECT) →
      socket_thread (pre ++ (fd, HIDE_CONNECT) :: post) s =
        ⟨{ s with hideFd := fd, thread := -1 }, pre.map Prod.fst, some fd⟩ := by
  intro pre
  induction pre with
  | nil =>
    intro fd post _
    simp [socket_thread]
  | cons c rest ih =>
    intro fd post h
    obtain ⟨cfd, code⟩ := c
    have hne : code ≠ HIDE_CONNECT := h (cfd, code) (List.mem_cons_self _ _)
    have hr := ih fd post (fun d hd => h d (List.mem_cons_of_mem _ hd))
    simp only [List.cons_append, socket_thread, if_neg hne, List.append_eq, hr, List.map_cons]

theorem getD_of_lt (l : List Char) (i : Nat) (h : i < l.length) (d1 d2 : Char) :
    l.getD i d1 = l.getD i d2 := by
  rw [List.getD_eq_getElem?_getD, List.getD_eq_getElem?_getD, List.getElem?_eq_getElem h]
  rfl

theorem mem_slotWrite (oob : Char) (line : List Char) (s : LogState)
    (j i : Fin 3) (fd : Int) (d : List Char) :
    ((i, fd, d) ∈ slotWrite oob line s j) ↔
      (i = j ∧ 0 < getFd s j ∧ filterAt oob j line = true ∧ fd = getFd s j ∧ d = line) := by
  unfold slotWrite
  split
  · rename_i hc
    simp only [List.mem_singleton, Prod.mk.injEq]
    constructor
    · rintro ⟨h1, h2, h3⟩
      exact ⟨h1, hc.1, hc.2, h2, h3⟩
    · rintro ⟨h1, _, _, h2, h3⟩
      exact ⟨h1, h2, h3⟩
  · rename_i hc
    simp only [List.not_mem_nil, false_iff]
    rintro ⟨_, h2, h3, _, _⟩
    exact hc ⟨h2, h3⟩

/-- C1: during one dispatch pass over a fixed registry state, a listener
slot receives a write (of exactly the line, verbatim, `len = strlen(line)`
bytes) if and only if its target is present (`fd > 0`) and its filter
applied to the line returns true; slots with an absent target receive
nothing. -/
theorem claim_C1_dispatch_receives_iff (oob : Char) (writeOk : Int → Bool)
    (line : List Char) (s : LogState) (i : Fin 3) (fd : Int) (data : List Char) :
    (i, fd, data) ∈ (dispatchLine oob writeOk line s).2 ↔
      (0 < getFd s i ∧ filterAt oob i line = true ∧
        fd = getFd s i ∧ data = line) := by
  rw [dispatchLine_snd]
  simp only [List.mem_append, mem_slotWrite]
  fin_cases i <;> simp [Fin.ext_iff]

/-- C8: the debug filter is the pointwise boolean complement of the hide
filter: `magisk_debug_log_filter` is true exactly when
`am_proc_start_filter` is false. -/
theorem claim_C8_debug_complement_hide (log : List Char) :
    magisk_debug_log_filter log = !(am_proc_start_filter log) := by
  unfold magisk_debug_log_filter am_proc_start_filter
  cases strstrIdx log amProcStart <;> rfl

/-- C9: a line whose first character is the continuation marker `'-'` is
discarded: no slot is written, the registry is unchanged, and no acceptor
is spawned, regardless of any filter. -/
theorem claim_C9_continuation_discarded (oob : Char) (writeOk : Int → Bool)
    (tid : Int) (line : List Char) (s : LogState) (h : line.head? = some '-') :
    processLine oob writeOk tid line s = ⟨s, [], false⟩ := by
  unfold processLine
  rw [if_pos h]

theorem claim_C9_witness :
    processLine 'x' (fun _ => true) 7 "-launch info".toList ⟨true, 4, 5, 6, -1⟩ =
      ⟨⟨true, 4, 5, 6, -1⟩, [], false⟩ :=
  claim_C9_continuation_discarded 'x' (fun _ => true) 7 "-launch info".toList
    ⟨true, 4, 5, 6, -1⟩ (by decide)

/-- C5: `test_logcat` spawns the log source in minimal mode (argv
`logcat` with no arguments), attempts to read exactly one byte, sets the
readiness flag to false iff that read fails (leaving the state unchanged
when it succeeds), and in every case terminates (SIGTERM) and reaps
(waitpid) the probe subprocess before returning. -/
theorem claim_C5_probe_behaviour (readOk : Bool) (s : LogState) :
    (test_logcat readOk s).argv = ["logcat"] ∧
    (test_logcat readOk s).bytesRequested = 1 ∧
    ((test_logcat readOk s).state.loggable = false ↔
      readOk = false ∨ s.loggable = false) ∧
    (readOk = true → (test_logcat readOk s).state = s) ∧
    (readOk = false → (test_logcat readOk s).state.loggable = false) ∧
    (test_logcat readOk s).state.hideFd = s.hideFd ∧
    (test_logcat readOk s).state.logFd = s.logFd ∧
    (test_logcat readOk s).state.debugFd = s.debugFd ∧
    (test_logcat readOk s).state.thread = s.thread ∧
    (test_logcat readOk s).killed = true ∧
    (test_logcat readOk s).reaped = true := by
  cases readOk <;> simp [test_logcat]

theorem claim_C5_witness :
    (test_logcat true ⟨true, 7, 8, 9, 1⟩).state = ⟨true, 7, 8, 9, 1⟩ ∧
      (test_logcat false ⟨true, 7, 8, 9, 1⟩).state.loggable = false :=
  ⟨(claim_C5_probe_behaviour true ⟨true, 7, 8, 9, 1⟩).2.2.2.1 rfl,
   (claim_C5_probe_behaviour false ⟨true, 7, 8, 9, 1⟩).2.2.2.2.1 rfl⟩

/-- C6: the acceptor thread closes every connection whose command code is
not `HIDE_CONNECT` and keeps accepting; at the first `HIDE_CONNECT` it
installs that connection as the hide slot's target (under the registry
guard), resets the thread handle and terminates, leaving any later
connections unserved; if no connection carries `HIDE_CONNECT`, all are
closed, nothing is registered and the thread keeps waiting. -/
theorem claim_C6_acceptor_protocol (s : LogState) :
    (∀ (pre : List (Int × Int)) (fd : Int) (post : List (Int × Int)),
      (∀ c ∈ pre, c.2 ≠ HIDE_CONNECT) →
      socket_thread (pre ++ (fd, HIDE_CONNECT) :: post) s =
        ⟨{ s with hideFd := fd, thread := -1 }, pre.map Prod.fst, some fd⟩) ∧
    (∀ conns : List (Int × Int), (∀ c ∈ conns, c.2 ≠ HIDE_CONNECT) →
      socket_thread conns s = ⟨s, conns.map Prod.fst, none⟩) :=
  ⟨socket_thread_first_match s, socket_thread_no_match s⟩

theorem claim_C6_witness :
    socket_thread [(9, 3), (10, HIDE_CONNECT), (11, 5)] ⟨true, -1, 5, 6, 12⟩ =
      ⟨⟨true, 10, 5, 6, -1⟩, [9], some 10⟩ :=
  (claim_C6_acceptor_protocol ⟨true, -1, 5, 6, 12⟩).1 [(9, 3)] 10 [(11, 5)]
    (by decide)

/-- C2: the readiness flag `loggable` starts true; no operation of the
daemon ever turns it from false back to true; the only operation that
turns it from true to false is a probe (`test_logcat`) whose read failed;
once it is false it stays false under any sequence of operations; and the
dispatch loop, on seeing it false, closes every listener target, sets all
of them to absent and returns (terminal state, no recovery path). -/
theorem claim_C2_readiness_flag_one_way :
    initState.loggable = true ∧
    (∀ (op : Op) (s : LogState), s.loggable = false →
      (applyOp op s).loggable = false) ∧
    (∀ (op : Op) (s : LogState), s.loggable = true →
      (applyOp op s).loggable = false → op = Op.probe false) ∧
    (∀ (ops : List Op) (s : LogState), s.loggable = false →
      (ops.foldl (fun t op => applyOp op t) s).loggable = false) ∧
    (∀ s : LogState, s.loggable = false →
      loopEntry s = Except.error (disableAll s) ∧
        (disableAll s).hideFd = -1 ∧ (disableAll s).logFd = -1 ∧
        (disableAll s).debugFd = -1) := by
  refine ⟨rfl, applyOp_false_mono, ?_, foldl_applyOp_false, ?_⟩
  · intro op s ht hf
    rcases applyOp_loggable op s with he | he
    · rw [he, ht] at hf
      exact absurd hf (by simp)
    · exact he
  · intro s h
    refine ⟨?_, rfl, rfl, rfl⟩
    unfold loopEntry
    rw [if_neg]
    rw [h]
    simp

theorem claim_C2_witness :
    loopEntry ⟨false, 3, 4, 5, -1⟩ = Except.error (disableAll ⟨false, 3, 4, 5, -1⟩) ∧
      (disableAll ⟨false, 3, 4, 5, -1⟩).hideFd = -1 ∧
      (disableAll ⟨false, 3, 4, 5, -1⟩).logFd = -1 ∧
      (disableAll ⟨false, 3, 4, 5, -1⟩).debugFd = -1 :=
  claim_C2_readiness_flag_one_way.2.2.2.2 ⟨false, 3, 4, 5, -1⟩ rfl

/-- C3: inside the guarded per-line critical section, an acceptor thread
is spawned exactly when the line was not skipped, no acceptor is
outstanding (`thread < 0`) and the hide slot's target is absent
(`fd < 0`) at the check; the dispatch pass never changes the thread
handle, so the outstanding-acceptor condition refers to the state at
guard acquisition; and whenever an acceptor is already outstanding
(`0 ≤ thread`), no new one is spawned and the handle is untouched —
hence at most one acceptor is outstanding at any time. -/
theorem claim_C3_acceptor_spawn_guard (oob : Char) (writeOk : Int → Bool)
    (tid : Int) (line : List Char) (s : LogState) :
    ((processLine oob writeOk tid line s).spawned = true ↔
      (line.head? ≠ some '-' ∧ (dispatchLine oob writeOk line s).1.thread < 0 ∧
        (dispatchLine oob writeOk line s).1.hideFd < 0)) ∧
    (dispatchLine oob writeOk line s).1.thread = s.thread ∧
    (0 ≤ s.thread →
      (processLine oob writeOk tid line s).spawned = false ∧
      (processLine oob writeOk tid line s).state.thread = s.thread) := by
  have hth : (dispatchLine oob writeOk line s).1.thread = s.thread :=
    (dispatchLine_fst_preserves oob writeOk line s).2.1
  refine ⟨?_, hth, ?_⟩
  · unfold processLine
    by_cases hh : line.head? = some '-'
    · rw [if_pos hh]
      simp [hh]
    · rw [if_neg hh]
      dsimp only
      by_cases hc : (dispatchLine oob writeOk line s).1.thread < 0 ∧
          (dispatchLine oob writeOk line s).1.hideFd < 0
      · rw [if_pos hc]
        simp [hh, hc.1, hc.2]
      · rw [if_neg hc]
        simp only [Bool.false_eq_true, false_iff]
        rintro ⟨_, h2, h3⟩
        exact hc ⟨h2, h3⟩
  · intro hpos
    unfold processLine
    by_cases hh : line.head? = some '-'
    · rw [if_pos hh]
      exact ⟨rfl, rfl⟩
    · rw [if_neg hh]
      dsimp only
      rw [if_neg]
      · exact ⟨rfl, hth⟩
      · rintro ⟨h2, _⟩
        rw [hth] at h2
        omega

theorem claim_C3_witness :
    (processLine 'x' (fun _ => true) 7 "I Magisk hello".toList
      ⟨true, 4, 5, 6, 2⟩).spawned = false ∧
    (processLine 'x' (fun _ => true) 7 "I Magisk hello".toList
      ⟨true, 4, 5, 6, 2⟩).state.thread = 2 :=
  (claim_C3_acceptor_spawn_guard 'x' (fun _ => true) 7 "I Magisk hello".toList
    ⟨true, 4, 5, 6, 2⟩).2.2 (by decide)

/-- C4: a failed write to the hide slot's target during dispatch (the
remote end closed, raising `SIGPIPE`) results in exactly the `SIGPIPE`
handler's effect: the hide slot's target is cleared to absent; the other
slots' targets, the readiness flag and every write issued to the other
slots are unaffected (the issued writes are independent of write
success), and the guarded section still completes — in particular the
re-arm check still runs and, with no acceptor outstanding, re-arms one. -/
theorem claim_C4_hide_write_failure_local (oob : Char) (writeOk : Int → Bool)
    (tid : Int) (line : List Char) (s : LogState)
    (hfd : 0 < s.hideFd) (hfil : filterAt oob 0 line = true)
    (hw : writeOk s.hideFd = false) :
    (dispatchLine oob writeOk line s).1 = sigpipe_handler s ∧
    (dispatchLine oob writeOk line s).1.hideFd = -1 ∧
    (dispatchLine oob writeOk line s).1.logFd = s.logFd ∧
    (dispatchLine oob writeOk line s).1.debugFd = s.debugFd ∧
    (dispatchLine oob writeOk line s).1.loggable = s.loggable ∧
    (dispatchLine oob writeOk line s).2 =
      (dispatchLine oob (fun _ => true) line s).2 ∧
    (line.head? ≠ some '-' → s.thread < 0 →
      (processLine oob writeOk tid line s).spawned = true) := by
  have h0 : (slotDispatch oob writeOk line s 0).1 = sigpipe_handler s := by
    unfold slotDispatch
    dsimp only
    rw [if_pos ⟨hfd, hfil⟩, if_pos ⟨rfl, hw⟩]
  have hfst : (dispatchLine oob writeOk line s).1 = sigpipe_handler s := by
    unfold dispatchLine
    dsimp only
    rw [slotDispatch_fst_of_ne oob writeOk line _ 2 (by decide),
        slotDispatch_fst_of_ne oob writeOk line _ 1 (by decide), h0]
  refine ⟨hfst, by rw [hfst]; rfl, by rw [hfst]; rfl, by rw [hfst]; rfl,
    by rw [hfst]; rfl, by rw [dispatchLine_snd, dispatchLine_snd], ?_⟩
  intro hh hth
  have hcond : (dispatchLine oob writeOk line s).1.thread < 0 ∧
      (dispatchLine oob writeOk line s).1.hideFd < 0 := by
    rw [hfst]
    exact ⟨hth, show (-1 : Int) < 0 by decide⟩
  unfold processLine
  rw [if_neg hh]
  dsimp only
  rw [if_pos hcond]

theorem claim_C4_witness :
    (dispatchLine 'x' (fun _ => false) "I am_proc_start done".toList
      ⟨true, 4, 5, 6, -1⟩).1 = sigpipe_handler ⟨true, 4, 5, 6, -1⟩ :=
  (claim_C4_hide_write_failure_local 'x' (fun _ => false) 7
    "I am_proc_start done".toList ⟨true, 4, 5, 6, -1⟩
    (by decide) (by decide) rfl).1

/-- C7: the persist filter returns true exactly when the line contains
`" Magisk"` and the character immediately preceding its first occurrence
is neither `'D'` nor `'V'`; when there is no occurrence the filter is
false. (The statement is for occurrences starting at index `i + 1 ≥ 1`,
where the preceding character exists; the out-of-bounds index-0 case is
settled separately.) -/
theorem claim_C7_persist_filter (oob : Char) (log : List Char) :
    (strstrIdx log magiskTag = none → magisk_log_filter oob log = false) ∧
    (∀ i : Nat, strstrIdx log magiskTag = some (i + 1) →
      (magisk_log_filter oob log = true ↔
        (log[i]? ≠ some 'D' ∧ log[i]? ≠ some 'V'))) := by
  constructor
  · intro h
    unfold magisk_log_filter
    rw [h]
  · intro i h
    have hlt : i < log.length := by
      have := strstrIdx_lt_length log magiskTag (i + 1) (by decide) h
      omega
    unfold magisk_log_filter
    rw [h]
    simp only [Nat.succ_ne_zero, if_false, Nat.add_sub_cancel,
      List.getD_eq_getElem?_getD, List.getElem?_eq_getElem hlt]
    simp [bne]

theorem claim_C7_witness :
    (magisk_log_filter 'x' "I Magisk up".toList = true ↔
      (("I Magisk up".toList)[0]? ≠ some 'D' ∧
        ("I Magisk up".toList)[0]? ≠ some 'V')) :=
  (claim_C7_persist_filter 'x' "I Magisk up".toList).2 0 (by decide)

/-- C10: `magisk_log_filter` reads the byte at offset (first occurrence of
`" Magisk"`) − 1; that offset is within the line buffer iff the occurrence
starts at index 1 or later; when the occurrence starts at index 0 the read
is at offset −1, before the start of the buffer, and the filter's result
is then a function of the unspecified out-of-bounds byte (demonstrated on
the line `" Magisk"` itself, where the result flips with that byte);
in-bounds runs are independent of the out-of-bounds byte. -/
theorem claim_C10_ss_prev_out_of_bounds :
    (∀ (log : List Char) (i : Nat), strstrIdx log magiskTag = some i →
      (ssPrevIndex log = some ((i : Int) - 1) ∧ (0 ≤ (i : Int) - 1 ↔ 1 ≤ i))) ∧
    (∀ log : List Char, strstrIdx log magiskTag = some 0 →
      (ssPrevIndex log = some (-1) ∧
        ∀ o : Char, magisk_log_filter o log = (o != 'D' && o != 'V'))) ∧
    (∀ (log : List Char) (i : Nat) (o1 o2 : Char),
      strstrIdx log magiskTag = some (i + 1) →
      magisk_log_filter o1 log = magisk_log_filter o2 log) ∧
    strstrIdx magiskTag magiskTag = some 0 ∧
    magisk_log_filter 'D' magiskTag = false ∧
    magisk_log_filter 'x' magiskTag = true := by
  refine ⟨?_, ?_, ?_, by decide, by decide, by decide⟩
  · intro log i h
    unfold ssPrevIndex
    rw [h]
    exact ⟨rfl, by omega⟩
  · intro log h
    constructor
    · unfold ssPrevIndex
      rw [h]
      rfl
    · intro o
      unfold magisk_log_filter
      rw [h]
      rfl
  · intro log i o1 o2 h
    have hlt : i < log.length := by
      have := strstrIdx_lt_length log magiskTag (i + 1) (by decide) h
      omega
    unfold magisk_log_filter
    rw [h]
    simp only [Nat.succ_ne_zero, if_false, Nat.add_sub_cancel]
    rw [getD_of_lt log i hlt o1 o2]

theorem claim_C10_witness :
    ssPrevIndex (" Magisk is up".toList) = some (-1) :=
  (claim_C10_ss_prev_out_of_bounds.2.1 (" Magisk is up".toList) (by decide)).1

end LogMonitor
